import Mathlib

/-!
Shallow embedding of `tensorflow/python/lib/core/ndarray_tensor.cc`:
the ndarray <-> TF_Tensor conversion layer (shape resolver, string codec,
aliasing bridge, copy converter and the two conversion entry points),
together with theorems about its specified properties.

Byte buffers are modelled as `List Nat` (one entry per byte), machine
integers as `Nat`; fallible operations return `Except TFError`.
-/

namespace NdarrayTensor

/-- The tensor engine's dtype tags used by this layer (the source only
branches on `TF_STRING` and `TF_RESOURCE`; the remaining tags stand for
the fixed-width numeric dtypes). -/
inductive TF_DataType where
  | TF_FLOAT
  | TF_DOUBLE
  | TF_INT32
  | TF_INT64
  | TF_STRING
  | TF_RESOURCE
deriving DecidableEq

/-- Error kinds produced by this layer (`tensorflow::errors::...`). -/
inductive TFError where
  | invalidArgument (msg : String)
  | internal (msg : String)
  | failedPrecondition (msg : String)
deriving DecidableEq

/-- Modelled from the spec: `tensorflow::core::VarintLength` (declared in
`core/lib/core/coding.h`, not part of this translation unit) — the number
of bytes of the base-128 variable-length encoding of an unsigned integer
("a small number of bytes for small values"). -/
def VarintLength (v : Nat) : Nat :=
  if h : v < 128 then 1 else 1 + VarintLength (v / 128)
decreasing_by exact Nat.div_lt_self (by omega) (by omega)

/-- Modelled from the spec: `tensorflow::core::EncodeVarint64` (declared in
`core/lib/core/coding.h`, not part of this translation unit) — writes the
base-128 digits of `v`, least significant first, setting the high bit on
every byte except the last. -/
def EncodeVarint64 (v : Nat) : List Nat :=
  if h : v < 128 then [v] else (v % 128 + 128) :: EncodeVarint64 (v / 128)
decreasing_by exact Nat.div_lt_self (by omega) (by omega)

/-- Modelled from the spec: `tensorflow::core::GetVarint64Ptr` — reads
continuation bytes (high bit set) accumulating 7-bit groups from the least
significant end; a byte below 128 terminates; running off the end of the
buffer is a failure. -/
def GetVarint64Ptr : List Nat → Nat → Nat → Option (Nat × List Nat)
  | [], _, _ => none
  | b :: rest, shift, result =>
    if 128 ≤ b then GetVarint64Ptr rest (shift + 7) (result + b % 128 * 2 ^ shift)
    else some (result + b * 2 ^ shift, rest)

/-- Modelled from the spec: `TF_StringDecode` (C API, not part of this
translation unit) — reads the varint length prefix of one record and
returns the payload bytes, failing with a decode error when the varint or
the payload runs past the declared buffer limit. -/
def TF_StringDecode (src : List Nat) : Option (List Nat) :=
  match GetVarint64Ptr src 0 0 with
  | none => none
  | some (len, rest) => if rest.length < len then none else some (rest.take len)

/-- The packed string-tensor buffer: `nelems` 64-bit offset slots (each 8
bytes wide in the byte layout) followed by the payload region of
length-prefixed records. -/
structure StringTensorBuffer where
  offsets : List Nat
  payload : List Nat
deriving DecidableEq

/-- Total byte size of the packed buffer: 8 bytes per offset slot plus the
payload region. -/
def StringTensorBuffer.byteSize (b : StringTensorBuffer) : Nat :=
  8 * b.offsets.length + b.payload.length

/-- First pass of `EncodePyBytesArray`: fold
`*size += sizeof(uint64) + VarintLength(len) + len` over all elements. -/
def encodedByteSize (elems : List (List Nat)) : Nat :=
  elems.foldl (fun size s => size + 8 + VarintLength s.length + s.length) 0

/-- Second pass of `EncodePyBytesArray`: for each element write
`*offsets = dst - data_start`, then advance `dst` past the varint length
prefix and the copied bytes. `dstOff` is the running value of
`dst - data_start`. Returns the offset table and the payload region. -/
def encodeFill : List (List Nat) → Nat → List Nat × List Nat
  | [], _ => ([], [])
  | s :: rest, dstOff =>
    let tail := encodeFill rest (dstOff + (EncodeVarint64 s.length).length + s.length)
    (dstOff :: tail.1, (EncodeVarint64 s.length ++ s) ++ tail.2)

/-- `EncodePyBytesArray`: measure the encoded size, then fill the buffer
(offset table at the head, payload after). Returns `(*size, buffer)`. -/
def EncodePyBytesArray (elems : List (List Nat)) : Nat × StringTensorBuffer :=
  (encodedByteSize elems,
   { offsets := (encodeFill elems 0).1, payload := (encodeFill elems 0).2 })

/-- The decode loop of `CopyTF_TensorStringsToPyArray`: for each declared
offset, decode the record starting at `data + offsets[i]` and store the
resulting byte string at position `i`. -/
def decodeStrings (payload : List Nat) : List Nat → Except TFError (List (List Nat))
  | [] => .ok []
  | off :: rest =>
    match TF_StringDecode (payload.drop off) with
    | none => .error (.invalidArgument "Malformed TF_STRING tensor; invalid encoding")
    | some s =>
      match decodeStrings payload rest with
      | .error e => .error e
      | .ok tl => .ok (s :: tl)

/-- `CopyTF_TensorStringsToPyArray`: size-consistency check followed by the
per-element decode loop. As in the source, `limit` is
`tensor_data + tensor_size`, so `expected_tensor_size`, computed as
`limit - tensor_data`, recomputes exactly `tensor_size`. -/
def CopyTF_TensorStringsToPyArray (src : StringTensorBuffer) :
    Except TFError (List (List Nat)) :=
  let tensor_size := src.byteSize
  let expected_tensor_size := src.byteSize
  if expected_tensor_size - tensor_size ≠ 0 then
    .error (.invalidArgument ("Invalid/corrupt TF_STRING tensor: expected " ++
      toString expected_tensor_size ++
      " bytes of encoded strings for the tensor containing " ++
      toString src.offsets.length ++
      " strings, but the tensor is encoded in " ++ toString tensor_size ++ " bytes"))
  else
    decodeStrings src.payload src.offsets

/-- A native tensor's data: raw fixed-width bytes, or (for the string
dtype) the packed string buffer written by the string codec. -/
inductive TensorData where
  | raw (bytes : List Nat)
  | strings (buf : StringTensorBuffer)
deriving DecidableEq

/-- Byte extent of the tensor's data buffer. -/
def TensorData.byteSize : TensorData → Nat
  | .raw bytes => bytes.length
  | .strings buf => buf.byteSize

/-- The native tensor handle: dtype tag, dimension vector, contiguous data
buffer. `movable` models the ownership state consumed by
`TF_TensorMaybeMove` — whether the buffer may be exclusively transferred
(spec: "a boolean/ownership state indicating whether its buffer may be
moved"). -/
structure TF_Tensor where
  dtype : TF_DataType
  dims : List Nat
  data : TensorData
  movable : Bool
deriving DecidableEq

/-- `TF_TensorByteSize`. -/
def TF_TensorByteSize (t : TF_Tensor) : Nat := t.data.byteSize

/-- `GetPyArrayDimensionsForTensor`: resource tensors must be rank 0 and
become a rank-1 byte blob; otherwise dimensions are read as declared and
the element count is accumulated as `*nelems *= dims->back()` starting
from 1. -/
def GetPyArrayDimensionsForTensor (t : TF_Tensor) :
    Except TFError (List Nat × Nat) :=
  if t.dtype = .TF_RESOURCE then
    if t.dims.length ≠ 0 then
      .error (.invalidArgument "Fetching of non-scalar resource tensors is not supported.")
    else
      .ok ([TF_TensorByteSize t], TF_TensorByteSize t)
  else
    .ok (t.dims, t.dims.foldl (fun n d => n * d) 1)

/-- An ndarray's element storage: raw bytes for fixed-width dtypes, or a
list of byte-string objects for the string/object dtype. -/
inductive PyContent where
  | bytes (data : List Nat)
  | objects (elems : List (List Nat))
deriving DecidableEq

/-- The embedding runtime's array object: dtype descriptor, dimension
vector, dense contiguous storage. -/
structure PyArrayObject where
  dtype : TF_DataType
  dims : List Nat
  content : PyContent
deriving DecidableEq

/-- Modelled from the spec: the element width of the numpy descriptor the
external dtype lookup returns for each dtype (string/resource map to an
object descriptor holding one pointer per element). -/
def itemsize : TF_DataType → Nat
  | .TF_FLOAT => 4
  | .TF_DOUBLE => 8
  | .TF_INT32 => 4
  | .TF_INT64 => 8
  | .TF_STRING => 8
  | .TF_RESOURCE => 8

/-- `PyArray_NBYTES`: the destination capacity computed from the
destination dtype and shape (itemsize times the number of elements). -/
def PyArray_NBYTES (a : PyArrayObject) : Nat :=
  itemsize a.dtype * a.dims.foldl (fun n d => n * d) 1

/-- Modelled from the spec: `PyArray_Empty` — a freshly allocated dense
array of the given descriptor and shape (zero-filled bytes, or empty
object slots for the string dtype). -/
def PyArray_Empty (dtype : TF_DataType) (dims : List Nat) : PyArrayObject :=
  { dtype := dtype, dims := dims,
    content :=
      if dtype = .TF_STRING then
        .objects (List.replicate (dims.foldl (fun n d => n * d) 1) [])
      else
        .bytes (List.replicate (itemsize dtype * dims.foldl (fun n d => n * d) 1) 0) }

/-- `FastMemcpy`: copy `size` bytes from `src` over the head of `dst`.
The source's size-specialized switch (≤ 16 bytes per exact size, block
copy above) has no semantic effect; every branch is this byte-exact
copy. -/
def FastMemcpy (dst src : List Nat) (size : Nat) : List Nat :=
  src.take size ++ dst.drop size

/-- Modelled from the spec: `TF_TensorMaybeMove` — attempts to take
exclusive ownership of the tensor's buffer, returning null when the move
is refused (e.g. the buffer is still shared elsewhere). -/
def TF_TensorMaybeMove (t : TF_Tensor) : Option TF_Tensor :=
  if t.movable then some t else none

/-- Modelled from the spec: `ArrayFromMemory` (ndarray_tensor_bridge) —
wraps an existing buffer as an ndarray; aliasing is applicable only when
the dtype is neither string nor resource. -/
def ArrayFromMemory (dims : List Nat) (data : TensorData) (dtype : TF_DataType) :
    Except TFError PyArrayObject :=
  if dtype = .TF_STRING ∨ dtype = .TF_RESOURCE then
    .error (.failedPrecondition "Cannot convert string or resource Tensors without copying")
  else
    match data with
    | .raw bytes => .ok { dtype := dtype, dims := dims, content := .bytes bytes }
    | .strings _ =>
        .error (.failedPrecondition "Cannot convert string or resource Tensors without copying")

/-- Modelled from the spec: `DataTypeToPyArray_Descr` — the external
bidirectional dtype lookup, total for every supported dtype. -/
def DataTypeToPyArray_Descr (dtype : TF_DataType) : Except TFError TF_DataType :=
  .ok dtype

/-- Result of the tensor-to-array conversion: the Python `None` sentinel
(for a null tensor) or an array object. -/
inductive PyResult where
  | Py_None
  | array (a : PyArrayObject)
deriving DecidableEq

/-- The copy fallback of `TF_TensorToPyArray`: look up the descriptor,
allocate the destination array, then either run the string decode, or
check the byte-capacity match and `FastMemcpy` the data across. -/
def tensorToPyArrayCopy (t : TF_Tensor) (dims : List Nat) :
    Except TFError PyResult :=
  match DataTypeToPyArray_Descr t.dtype with
  | .error e => .error e
  | .ok descr =>
    let py_array := PyArray_Empty descr dims
    if t.dtype = .TF_STRING then
      match t.data with
      | .strings buf =>
        match CopyTF_TensorStringsToPyArray buf with
        | .error e => .error e
        | .ok elems => .ok (.array { py_array with content := .objects elems })
      | .raw _ => .error (.internal "string tensor without a packed string buffer")
    else if PyArray_NBYTES py_array ≠ TF_TensorByteSize t then
      .error (.internal ("ndarray was " ++ toString (PyArray_NBYTES py_array) ++
        " bytes but TF_Tensor was " ++ toString (TF_TensorByteSize t) ++ " bytes"))
    else
      match t.data, py_array.content with
      | .raw bytes, .bytes dst =>
        .ok (.array { py_array with
          content := .bytes (FastMemcpy dst bytes (PyArray_NBYTES py_array)) })
      | _, _ => .error (.internal "non-string tensor without raw bytes")

/-- `TF_TensorToPyArray`: null tensor becomes the `None` sentinel; then
shape resolution, the move/alias attempt (whose refusal or failure falls
through silently), and the copy fallback. -/
def TF_TensorToPyArray (tensor : Option TF_Tensor) : Except TFError PyResult :=
  match tensor with
  | none => .ok .Py_None
  | some t =>
    match GetPyArrayDimensionsForTensor t with
    | .error e => .error e
    | .ok (dims, _) =>
      match TF_TensorMaybeMove t with
      | some moved =>
        match ArrayFromMemory dims moved.data moved.dtype with
        | .ok a => .ok (.array a)
        | .error _ => tensorToPyArrayCopy t dims
      | none => tensorToPyArrayCopy t dims

/-- `PyArrayToTF_Tensor`: a dense input array is adopted (resource: rank
forced to 0; other fixed-width dtypes: buffer aliased with a deferred
decref, so a later exclusive move of the tensor's buffer is refused) or,
for the string dtype, encoded into a fresh packed buffer. -/
def PyArrayToTF_Tensor (ndarray : PyArrayObject) : Except TFError TF_Tensor :=
  let dtype := ndarray.dtype
  let dims := ndarray.dims
  if dtype = .TF_RESOURCE then
    match ndarray.content with
    | .bytes b => .ok { dtype := .TF_RESOURCE, dims := [], data := .raw b, movable := false }
    | .objects _ => .error (.internal "resource ndarray without raw bytes")
  else if dtype ≠ .TF_STRING then
    match ndarray.content with
    | .bytes b => .ok { dtype := dtype, dims := dims, data := .raw b, movable := false }
    | .objects _ => .error (.internal "numeric ndarray without raw bytes")
  else
    match ndarray.content with
    | .objects elems =>
      .ok { dtype := .TF_STRING, dims := dims,
            data := .strings (EncodePyBytesArray elems).2, movable := false }
    | .bytes _ => .error (.internal "string ndarray without object elements")

/-! ## Helper lemmas about the varint codec -/

theorem EncodeVarint64_length (v : Nat) :
    (EncodeVarint64 v).length = VarintLength v := by
  induction v using Nat.strong_induction_on with
  | _ v ih =>
    rw [EncodeVarint64, VarintLength]
    split
    · simp
    · rename_i h
      simp [ih (v / 128) (Nat.div_lt_self (by omega) (by omega))]
      omega

theorem VarintLength_pos (v : Nat) : 1 ≤ VarintLength v := by
  rw [VarintLength]
  split <;> omega

theorem GetVarint64Ptr_EncodeVarint64 (v : Nat) :
    ∀ (tail : List Nat) (shift result : Nat),
      GetVarint64Ptr (EncodeVarint64 v ++ tail) shift result =
        some (result + v * 2 ^ shift, tail) := by
  induction v using Nat.strong_induction_on with
  | _ v ih =>
    intro tail shift result
    rw [EncodeVarint64]
    split
    · rename_i h
      simp only [List.cons_append, List.nil_append, GetVarint64Ptr]
      rw [if_neg (by omega)]
      simp
    · rename_i h
      simp only [List.cons_append, GetVarint64Ptr]
      rw [if_pos (by omega)]
      simp only [List.append_eq]
      rw [ih (v / 128) (Nat.div_lt_self (by omega) (by omega)) tail (shift + 7)]
      congr 2
      have h1 : (v % 128 + 128) % 128 = v % 128 := by omega
      have h2 : 128 * (v / 128) + v % 128 = v := Nat.div_add_mod v 128
      rw [h1, pow_add, show (2 : ℕ) ^ 7 = 128 by norm_num]
      calc result + v % 128 * 2 ^ shift + v / 128 * (2 ^ shift * 128)
          = result + (128 * (v / 128) + v % 128) * 2 ^ shift := by ring
        _ = result + v * 2 ^ shift := by rw [h2]

theorem TF_StringDecode_encoded (s tail : List Nat) :
    TF_StringDecode (EncodeVarint64 s.length ++ (s ++ tail)) = some s := by
  rw [TF_StringDecode, GetVarint64Ptr_EncodeVarint64]
  simp

/-! ## Helper lemmas about the fill pass -/

theorem encodeFill_fst_length (elems : List (List Nat)) :
    ∀ d, (encodeFill elems d).1.length = elems.length := by
  induction elems with
  | nil => intro d; simp [encodeFill]
  | cons s rest ih => intro d; simp [encodeFill, ih]

theorem encodeFill_snd_length (elems : List (List Nat)) :
    ∀ d, (encodeFill elems d).2.length =
      (elems.map fun s => VarintLength s.length + s.length).sum := by
  induction elems with
  | nil => intro d; simp [encodeFill]
  | cons s rest ih =>
    intro d
    simp [encodeFill, ih, EncodeVarint64_length]
    omega

theorem encodeFill_snd_shift (elems : List (List Nat)) :
    ∀ d d', (encodeFill elems d).2 = (encodeFill elems d').2 := by
  induction elems with
  | nil => intro d d'; simp [encodeFill]
  | cons s rest ih => intro d d'; simp [encodeFill]; exact ih _ _

theorem decodeStrings_encodeFill (elems : List (List Nat)) :
    ∀ pre : List Nat,
      decodeStrings (pre ++ (encodeFill elems pre.length).2)
        ((encodeFill elems pre.length).1) = .ok elems := by
  induction elems with
  | nil => intro pre; simp [encodeFill, decodeStrings]
  | cons s rest ih =>
    intro pre
    simp only [encodeFill]
    rw [decodeStrings]
    have hdrop :
        (pre ++ ((EncodeVarint64 s.length ++ s) ++
            (encodeFill rest
              (pre.length + (EncodeVarint64 s.length).length + s.length)).2)).drop
          pre.length =
        EncodeVarint64 s.length ++
          (s ++ (encodeFill rest
            (pre.length + (EncodeVarint64 s.length).length + s.length)).2) := by
      rw [List.drop_left]
      simp [List.append_assoc]
    rw [hdrop, TF_StringDecode_encoded]
    have hpre :
        pre ++ ((EncodeVarint64 s.length ++ s) ++
            (encodeFill rest
              (pre.length + (EncodeVarint64 s.length).length + s.length)).2) =
        (pre ++ EncodeVarint64 s.length ++ s) ++
          (encodeFill rest
            (pre ++ EncodeVarint64 s.length ++ s).length).2 := by
      have hlen : (pre ++ EncodeVarint64 s.length ++ s).length =
          pre.length + (EncodeVarint64 s.length).length + s.length := by
        simp
        omega
      rw [hlen]
      simp [List.append_assoc]
    have harg : pre.length + (EncodeVarint64 s.length).length + s.length =
        (pre ++ EncodeVarint64 s.length ++ s).length := by simp; omega
    rw [hpre, harg, ih (pre ++ EncodeVarint64 s.length ++ s)]

theorem encodeFill_offsets_bound (elems : List (List Nat)) :
    ∀ d, ∀ off ∈ (encodeFill elems d).1,
      d ≤ off ∧ off < d + (encodeFill elems d).2.length := by
  induction elems with
  | nil => intro d off h; simp [encodeFill] at h
  | cons s rest ih =>
    intro d off hmem
    simp only [encodeFill, List.mem_cons] at hmem
    have hev : 1 ≤ (EncodeVarint64 s.length).length := by
      rw [EncodeVarint64_length]; exact VarintLength_pos _
    rcases hmem with h | h
    · subst h
      refine ⟨le_refl _, ?_⟩
      simp [encodeFill]
      omega
    · have hb := ih (d + (EncodeVarint64 s.length).length + s.length) off h
      have hlen :
          (encodeFill rest (d + (EncodeVarint64 s.length).length + s.length)).2.length =
          (encodeFill (s :: rest) d).2.length -
            ((EncodeVarint64 s.length).length + s.length) := by
        simp [encodeFill]
        omega
      constructor
      · omega
      · simp only [encodeFill]
        simp
        omega

/-! ## Shared lemmas about the converters -/

theorem encodedByteSize_eq (elems : List (List Nat)) :
    encodedByteSize elems =
      8 * elems.length + (elems.map fun s => VarintLength s.length + s.length).sum := by
  suffices h : ∀ a, elems.foldl
      (fun size s => size + 8 + VarintLength s.length + s.length) a =
      a + 8 * elems.length +
        (elems.map fun s => VarintLength s.length + s.length).sum by
    simpa [encodedByteSize] using h 0
  induction elems with
  | nil => intro a; simp
  | cons s rest ih =>
    intro a
    simp only [List.foldl_cons, List.map_cons, List.sum_cons, List.length_cons, ih]
    omega

theorem getDims_nonresource (t : TF_Tensor) (h : t.dtype ≠ .TF_RESOURCE) :
    GetPyArrayDimensionsForTensor t =
      .ok (t.dims, t.dims.foldl (fun n d => n * d) 1) := by
  simp [GetPyArrayDimensionsForTensor, h]

theorem tensorToPyArrayCopy_raw (t : TF_Tensor) (b : List Nat)
    (hs : t.dtype ≠ .TF_STRING) (hd : t.data = .raw b)
    (hsz : itemsize t.dtype * t.dims.foldl (fun n d => n * d) 1 = b.length) :
    tensorToPyArrayCopy t t.dims =
      .ok (.array { dtype := t.dtype, dims := t.dims, content := .bytes b }) := by
  simp only [tensorToPyArrayCopy, DataTypeToPyArray_Descr, PyArray_Empty, hd]
  rw [if_neg hs]
  have hn : PyArray_NBYTES
      { dtype := t.dtype, dims := t.dims,
        content := .bytes (List.replicate
          (itemsize t.dtype * t.dims.foldl (fun n d => n * d) 1) 0) } =
      b.length := by
    simpa [PyArray_NBYTES] using hsz
  have hbs : TF_TensorByteSize t = b.length := by
    simp [TF_TensorByteSize, hd, TensorData.byteSize]
  simp only [if_neg hs, hn, hbs, ne_eq, not_true_eq_false, if_false, ite_false,
    FastMemcpy]
  simp [List.take_of_length_le, List.drop_eq_nil_of_le, hsz]

theorem tensorToPyArray_unmovable_raw (t : TF_Tensor) (b : List Nat)
    (hmov : t.movable = false) (hs : t.dtype ≠ .TF_STRING)
    (hr : t.dtype ≠ .TF_RESOURCE) (hd : t.data = .raw b)
    (hsz : itemsize t.dtype * t.dims.foldl (fun n d => n * d) 1 = b.length) :
    TF_TensorToPyArray (some t) =
      .ok (.array { dtype := t.dtype, dims := t.dims, content := .bytes b }) := by
  simp only [TF_TensorToPyArray]
  rw [getDims_nonresource t hr]
  have hmm : TF_TensorMaybeMove t = none := by simp [TF_TensorMaybeMove, hmov]
  rw [hmm]
  exact tensorToPyArrayCopy_raw t b hs hd hsz

/-! ## Claims -/

/-- Claim C1: for every list of byte-string elements, including empty
strings and strings containing embedded zero bytes, encoding the list with
`EncodePyBytesArray` and then decoding the resulting packed buffer with
`CopyTF_TensorStringsToPyArray` reproduces every element's bytes exactly,
and each of the `nelems` offsets written by the encoder lies strictly
within `[0, payload_size)`. -/
theorem stringCodec_roundtrip_and_offsets_in_range (elems : List (List Nat)) :
    CopyTF_TensorStringsToPyArray (EncodePyBytesArray elems).2 = .ok elems ∧
    ∀ off ∈ (EncodePyBytesArray elems).2.offsets,
      off < (EncodePyBytesArray elems).2.payload.length := by
  constructor
  · simp only [CopyTF_TensorStringsToPyArray, EncodePyBytesArray,
      Nat.sub_self, ne_eq, not_true_eq_false, if_false, ite_false]
    simpa using decodeStrings_encodeFill elems []
  · intro off hoff
    simp only [EncodePyBytesArray] at hoff ⊢
    simpa using (encodeFill_offsets_bound elems 0 off hoff).2

/-- Claim C2 (counterexample to the claimed behavior): the size-consistency
check of `CopyTF_TensorStringsToPyArray` compares `limit - tensor_data`
with `tensor_size`, two expressions for the same quantity, so a packed
buffer whose declared byte size exceeds the header plus the sum of its
records' `varint-length + length` bytes (here one stray trailing byte)
decodes successfully instead of failing with `InvalidArgument`. -/
theorem oversized_string_tensor_decodes_without_error :
    StringTensorBuffer.byteSize ⟨[0], [1, 97, 0]⟩ ≠
      8 * 1 + (VarintLength 1 + 1) ∧
    CopyTF_TensorStringsToPyArray ⟨[0], [1, 97, 0]⟩ = .ok [[97]] := by
  have h1 : VarintLength 1 = 1 := by rw [VarintLength]; simp
  exact ⟨by rw [h1]; decide, rfl⟩

/-- Claim C3: for every native tensor of resource dtype,
`GetPyArrayDimensionsForTensor` fails with `InvalidArgument` whenever the
tensor's rank is nonzero, and for rank 0 it succeeds, returning a
1-dimensional shape whose single dimension equals the tensor's total byte
size and an element count equal to that byte size. -/
theorem resource_tensor_shape_resolution (t : TF_Tensor)
    (h : t.dtype = .TF_RESOURCE) :
    (t.dims.length ≠ 0 →
      GetPyArrayDimensionsForTensor t =
        .error (.invalidArgument
          "Fetching of non-scalar resource tensors is not supported.")) ∧
    (t.dims.length = 0 →
      GetPyArrayDimensionsForTensor t =
        .ok ([TF_TensorByteSize t], TF_TensorByteSize t)) := by
  constructor <;> intro hd <;> simp [GetPyArrayDimensionsForTensor, h, hd]

theorem resource_tensor_shape_resolution_witness :
    (TF_Tensor.mk .TF_RESOURCE [2] (.raw [0, 0]) false).dtype = .TF_RESOURCE ∧
    GetPyArrayDimensionsForTensor ⟨.TF_RESOURCE, [2], .raw [0, 0], false⟩ =
      .error (.invalidArgument
        "Fetching of non-scalar resource tensors is not supported.") ∧
    GetPyArrayDimensionsForTensor ⟨.TF_RESOURCE, [], .raw [10, 20, 30], false⟩ =
      .ok ([3], 3) := by
  refine ⟨rfl, ?_, ?_⟩
  · exact (resource_tensor_shape_resolution
      ⟨.TF_RESOURCE, [2], .raw [0, 0], false⟩ rfl).1 (by decide)
  · simpa using (resource_tensor_shape_resolution
      ⟨.TF_RESOURCE, [], .raw [10, 20, 30], false⟩ rfl).2 rfl

/-- Claim C5: `TF_TensorToPyArray` applied to a null tensor handle returns
success with the `None` sentinel, never an error. -/
theorem null_tensor_converts_to_none :
    TF_TensorToPyArray none = .ok .Py_None := rfl

/-- Claim C8: the measuring pass of the string codec computes the total
encoded buffer size as the sum over all elements of 8 (offset slot) plus
the varint length of `len` plus `len`; in particular encoding the three
elements `""`, `"ab"` and `"x"` repeated 300 times measures exactly
`3*8 + (1+0) + (1+2) + (2+300)` bytes. -/
theorem measuring_pass_size_formula :
    (∀ elems : List (List Nat),
      (EncodePyBytesArray elems).1 =
        8 * elems.length +
          (elems.map fun s => VarintLength s.length + s.length).sum) ∧
    (EncodePyBytesArray [[], [97, 98], List.replicate 300 120]).1 =
      3 * 8 + (1 + 0) + (1 + 2) + (2 + 300) := by
  constructor
  · intro elems
    simpa [EncodePyBytesArray] using encodedByteSize_eq elems
  · have h0 : VarintLength 0 = 1 := by rw [VarintLength]; simp
    have h2 : VarintLength 2 = 1 := by rw [VarintLength]; simp
    have h300 : VarintLength 300 = 2 := by rw [VarintLength]; simp [h2]
    show encodedByteSize [[], [97, 98], List.replicate 300 120] =
      3 * 8 + (1 + 0) + (1 + 2) + (2 + 300)
    rw [encodedByteSize_eq]
    simp only [List.map_cons, List.map_nil, List.sum_cons, List.sum_nil,
      List.length_cons, List.length_nil, List.length_replicate, h0, h2, h300]
    norm_num

/-- Claim C9: for every native tensor whose dtype is not the resource
kind, `GetPyArrayDimensionsForTensor` returns the tensor's declared
dimensions unchanged and an element count equal to the product of all
dimensions, an empty dimension vector yielding element count 1. -/
theorem nonresource_tensor_shape_resolution (t : TF_Tensor)
    (h : t.dtype ≠ .TF_RESOURCE) :
    GetPyArrayDimensionsForTensor t = .ok (t.dims, t.dims.prod) ∧
    (t.dims = [] → GetPyArrayDimensionsForTensor t = .ok ([], 1)) := by
  have hfold : t.dims.foldl (fun n d => n * d) 1 = t.dims.prod :=
    (List.prod_eq_foldl (l := t.dims)).symm
  constructor
  · rw [getDims_nonresource t h, hfold]
  · intro hnil
    rw [getDims_nonresource t h, hnil]
    simp

theorem nonresource_tensor_shape_resolution_witness :
    (TF_Tensor.mk .TF_FLOAT [2, 3] (.raw []) false).dtype ≠ .TF_RESOURCE ∧
    GetPyArrayDimensionsForTensor ⟨.TF_FLOAT, [2, 3], .raw [], false⟩ =
      .ok ([2, 3], 6) := by
  refine ⟨by decide, ?_⟩
  simpa using (nonresource_tensor_shape_resolution
    ⟨.TF_FLOAT, [2, 3], .raw [], false⟩ (by decide)).1

/-- Claim C10: the fill pass of `EncodePyBytesArray` writes exactly the
number of bytes computed by the measuring pass: the buffer it builds has
byte size equal to the measured `*size`, so the final cursor assertion
`CHECK_EQ(dst, base + *size)` always holds. -/
theorem fill_pass_writes_measured_size (elems : List (List Nat)) :
    (EncodePyBytesArray elems).2.byteSize = (EncodePyBytesArray elems).1 := by
  simp only [EncodePyBytesArray, StringTensorBuffer.byteSize]
  rw [encodeFill_fst_length, encodeFill_snd_length, encodedByteSize_eq]

/-- Claim C4: for every dense numeric (non-string, non-resource dtype)
array, converting it with `PyArrayToTF_Tensor` and converting the result
back with `TF_TensorToPyArray` yields an array with exactly the original
shape and exactly the original byte content. -/
theorem numeric_array_tensor_roundtrip (a : PyArrayObject) (b : List Nat)
    (hs : a.dtype ≠ .TF_STRING) (hr : a.dtype ≠ .TF_RESOURCE)
    (hc : a.content = .bytes b)
    (hdense : b.length = itemsize a.dtype * a.dims.foldl (fun n d => n * d) 1) :
    (PyArrayToTF_Tensor a).bind (fun t => TF_TensorToPyArray (some t)) =
      .ok (.array { dtype := a.dtype, dims := a.dims, content := .bytes b }) := by
  have h1 : PyArrayToTF_Tensor a = .ok ⟨a.dtype, a.dims, .raw b, false⟩ := by
    simp [PyArrayToTF_Tensor, hr, hs, hc]
  rw [h1]
  show TF_TensorToPyArray (some ⟨a.dtype, a.dims, .raw b, false⟩) = _
  exact tensorToPyArray_unmovable_raw ⟨a.dtype, a.dims, .raw b, false⟩ b rfl
    hs hr rfl hdense.symm

theorem numeric_array_tensor_roundtrip_witness :
    (PyArrayObject.mk .TF_FLOAT [2] (.bytes [1, 2, 3, 4, 5, 6, 7, 8])).dtype ≠
      .TF_STRING ∧
    (PyArrayObject.mk .TF_FLOAT [2] (.bytes [1, 2, 3, 4, 5, 6, 7, 8])).dtype ≠
      .TF_RESOURCE ∧
    (PyArrayObject.mk .TF_FLOAT [2] (.bytes [1, 2, 3, 4, 5, 6, 7, 8])).content =
      .bytes [1, 2, 3, 4, 5, 6, 7, 8] ∧
    ([1, 2, 3, 4, 5, 6, 7, 8] : List Nat).length =
      itemsize .TF_FLOAT * ([2] : List Nat).foldl (fun n d => n * d) 1 ∧
    (PyArrayToTF_Tensor ⟨.TF_FLOAT, [2], .bytes [1, 2, 3, 4, 5, 6, 7, 8]⟩).bind
        (fun t => TF_TensorToPyArray (some t)) =
      .ok (.array ⟨.TF_FLOAT, [2], .bytes [1, 2, 3, 4, 5, 6, 7, 8]⟩) := by
  refine ⟨by decide, by decide, rfl, by decide, ?_⟩
  exact numeric_array_tensor_roundtrip
    ⟨.TF_FLOAT, [2], .bytes [1, 2, 3, 4, 5, 6, 7, 8]⟩ _
    (by decide) (by decide) rfl (by decide)

/-- Claim C6: on the copy path of `TF_TensorToPyArray` for a fixed-width
(non-string) dtype, if the freshly allocated destination array's computed
byte capacity differs from the source tensor's declared byte size, the
conversion fails with an `Internal` error that reports both sizes, and no
bytes are silently truncated or overflowed. -/
theorem copy_path_size_mismatch_internal_error (t : TF_Tensor) (b : List Nat)
    (hmov : t.movable = false) (hs : t.dtype ≠ .TF_STRING)
    (hr : t.dtype ≠ .TF_RESOURCE) (hd : t.data = .raw b)
    (hsz : itemsize t.dtype * t.dims.foldl (fun n d => n * d) 1 ≠ b.length) :
    TF_TensorToPyArray (some t) =
      .error (.internal ("ndarray was " ++
        toString (itemsize t.dtype * t.dims.foldl (fun n d => n * d) 1) ++
        " bytes but TF_Tensor was " ++ toString b.length ++ " bytes")) := by
  simp only [TF_TensorToPyArray]
  rw [getDims_nonresource t hr]
  have hmm : TF_TensorMaybeMove t = none := by simp [TF_TensorMaybeMove, hmov]
  rw [hmm]
  simp only [tensorToPyArrayCopy, DataTypeToPyArray_Descr, PyArray_Empty]
  rw [if_neg hs]
  have hbs : TF_TensorByteSize t = b.length := by
    simp [TF_TensorByteSize, hd, TensorData.byteSize]
  have hn : PyArray_NBYTES
      { dtype := t.dtype, dims := t.dims,
        content := .bytes (List.replicate
          (itemsize t.dtype * t.dims.foldl (fun n d => n * d) 1) 0) } =
      itemsize t.dtype * t.dims.foldl (fun n d => n * d) 1 := by
    simp [PyArray_NBYTES]
  simp only [if_neg hs, hn, hbs]
  rw [if_pos hsz]

theorem copy_path_size_mismatch_witness :
    (TF_Tensor.mk .TF_FLOAT [1] (.raw [0, 0, 0]) false).movable = false ∧
    (TF_Tensor.mk .TF_FLOAT [1] (.raw [0, 0, 0]) false).dtype ≠ .TF_STRING ∧
    (TF_Tensor.mk .TF_FLOAT [1] (.raw [0, 0, 0]) false).dtype ≠ .TF_RESOURCE ∧
    (TF_Tensor.mk .TF_FLOAT [1] (.raw [0, 0, 0]) false).data = .raw [0, 0, 0] ∧
    itemsize .TF_FLOAT * ([1] : List Nat).foldl (fun n d => n * d) 1 ≠
      ([0, 0, 0] : List Nat).length ∧
    TF_TensorToPyArray (some ⟨.TF_FLOAT, [1], .raw [0, 0, 0], false⟩) =
      .error (.internal "ndarray was 4 bytes but TF_Tensor was 3 bytes") := by
  refine ⟨rfl, by decide, by decide, rfl, by decide, ?_⟩
  exact copy_path_size_mismatch_internal_error
    ⟨.TF_FLOAT, [1], .raw [0, 0, 0], false⟩ [0, 0, 0]
    rfl (by decide) (by decide) rfl (by decide)

/-- Claim C7: for every non-string, non-resource tensor whose exclusive
buffer transfer is refused (`TF_TensorMaybeMove` returns null),
`TF_TensorToPyArray` does not surface the refusal as an error: it falls
through to the copy path and returns success with an array whose content
matches the tensor's bytes byte-for-byte. -/
theorem move_refusal_falls_through_to_copy (t : TF_Tensor) (b : List Nat)
    (hmov : t.movable = false) (hs : t.dtype ≠ .TF_STRING)
    (hr : t.dtype ≠ .TF_RESOURCE) (hd : t.data = .raw b)
    (hsz : itemsize t.dtype * t.dims.foldl (fun n d => n * d) 1 = b.length) :
    TF_TensorMaybeMove t = none ∧
    TF_TensorToPyArray (some t) =
      .ok (.array { dtype := t.dtype, dims := t.dims, content := .bytes b }) :=
  ⟨by simp [TF_TensorMaybeMove, hmov],
   tensorToPyArray_unmovable_raw t b hmov hs hr hd hsz⟩

theorem move_refusal_falls_through_witness :
    (TF_Tensor.mk .TF_DOUBLE [1] (.raw [9, 8, 7, 6, 5, 4, 3, 2]) false).movable =
      false ∧
    (TF_Tensor.mk .TF_DOUBLE [1] (.raw [9, 8, 7, 6, 5, 4, 3, 2]) false).dtype ≠
      .TF_STRING ∧
    (TF_Tensor.mk .TF_DOUBLE [1] (.raw [9, 8, 7, 6, 5, 4, 3, 2]) false).dtype ≠
      .TF_RESOURCE ∧
    (TF_Tensor.mk .TF_DOUBLE [1] (.raw [9, 8, 7, 6, 5, 4, 3, 2]) false).data =
      .raw [9, 8, 7, 6, 5, 4, 3, 2] ∧
    itemsize .TF_DOUBLE * ([1] : List Nat).foldl (fun n d => n * d) 1 =
      ([9, 8, 7, 6, 5, 4, 3, 2] : List Nat).length ∧
    TF_TensorMaybeMove ⟨.TF_DOUBLE, [1], .raw [9, 8, 7, 6, 5, 4, 3, 2], false⟩ =
      none ∧
    TF_TensorToPyArray
        (some ⟨.TF_DOUBLE, [1], .raw [9, 8, 7, 6, 5, 4, 3, 2], false⟩) =
      .ok (.array ⟨.TF_DOUBLE, [1], .bytes [9, 8, 7, 6, 5, 4, 3, 2]⟩) := by
  refine ⟨rfl, by decide, by decide, rfl, by decide, ?_, ?_⟩
  · exact (move_refusal_falls_through_to_copy
      ⟨.TF_DOUBLE, [1], .raw [9, 8, 7, 6, 5, 4, 3, 2], false⟩
      [9, 8, 7, 6, 5, 4, 3, 2] rfl (by decide) (by decide) rfl (by decide)).1
  · exact (move_refusal_falls_through_to_copy
      ⟨.TF_DOUBLE, [1], .raw [9, 8, 7, 6, 5, 4, 3, 2], false⟩
      [9, 8, 7, 6, 5, 4, 3, 2] rfl (by decide) (by decide) rfl (by decide)).2

end NdarrayTensor
